import Mathlib

/-!
Shallow embedding of the kaos agent orchestration core (src/python):
the session/event store (agent/memory.py), the directive parser and the
agentic reasoning loop (agent/client.py), the peer-agent handle
(agent/client.py, RemoteAgent) and the telemetry span stack
(telemetry/manager.py), together with theorems settling the frozen claims.

Modelling conventions:
- Python datetimes are a logical clock (`Nat`); each mutating operation takes
  the current time as an explicit argument.
- A Python dict is an insertion-ordered association list with unique keys;
  `dictInsert` updates in place like `d[k] = v`, `dictRemove` like `del d[k]`.
- `int(x * 0.8)` on the session caps is modelled as `x * 4 / 5` (Nat floor
  division); the double rounding of 0.8 only diverges from this for
  astronomically large caps.
- Exceptions are an explicit `Exc` sum; `Except` models raising code.
- JSON numbers keep their lexeme (no float semantics is ever needed).
-/

/-- The opening brace character (written via an escape throughout). -/
def lbraceC : Char := '\x7b'

/-- The closing brace character. -/
def rbraceC : Char := '\x7d'

/-- A parsed JSON value, as produced by `json.loads`. Objects keep the raw
field list in source order; lookups take the last binding of a key, matching
the dict that Python builds (later duplicate keys win). -/
inductive JVal where
  | null
  | bool (b : Bool)
  | num (lit : String)
  | str (s : String)
  | arr (elems : List JVal)
  | obj (fields : List (String × JVal))

/-- JSON insignificant whitespace (RFC 8259, as accepted by `json.loads`). -/
def isJsonWs (c : Char) : Bool :=
  c = ' ' || c = '\t' || c = '\n' || c = '\r'

/-- Drop leading JSON whitespace. -/
def skipWs : List Char → List Char
  | [] => []
  | c :: cs => if isJsonWs c then skipWs cs else c :: cs

/-- Match a literal character sequence, returning the remainder. -/
def listStripPrefix : List Char → List Char → Option (List Char)
  | [], cs => some cs
  | _ :: _, [] => none
  | p :: ps, c :: cs => if p = c then listStripPrefix ps cs else none

/-- Value of a hexadecimal digit. -/
def hexVal (c : Char) : Option Nat :=
  if '0' ≤ c ∧ c ≤ '9' then some (c.toNat - '0'.toNat)
  else if 'a' ≤ c ∧ c ≤ 'f' then some (c.toNat - 'a'.toNat + 10)
  else if 'A' ≤ c ∧ c ≤ 'F' then some (c.toNat - 'A'.toNat + 10)
  else none

/-- Parse the body of a JSON string after the opening quote, in strict mode
(raw control characters are rejected, like `json.loads` defaults). A `\uXXXX`
escape becomes a single character (surrogate pairing is not modelled). -/
def parseJStr : List Char → Option (String × List Char)
  | [] => none
  | '"' :: cs => some ("", cs)
  | '\\' :: 'u' :: h1 :: h2 :: h3 :: h4 :: cs =>
    match hexVal h1, hexVal h2, hexVal h3, hexVal h4 with
    | some a, some b, some c, some d =>
      match parseJStr cs with
      | some (s, r) =>
        some (String.singleton (Char.ofNat (((a * 16 + b) * 16 + c) * 16 + d)) ++ s, r)
      | none => none
    | _, _, _, _ => none
  | '\\' :: e :: cs =>
    let esc : Option Char :=
      if e = '"' then some '"'
      else if e = '\\' then some '\\'
      else if e = '/' then some '/'
      else if e = 'b' then some '\x08'
      else if e = 'f' then some '\x0c'
      else if e = 'n' then some '\n'
      else if e = 'r' then some '\r'
      else if e = 't' then some '\t'
      else none
    match esc with
    | some ch =>
      match parseJStr cs with
      | some (s, r) => some (String.singleton ch ++ s, r)
      | none => none
    | none => none
  | c :: cs =>
    if c.toNat < 32 then none
    else
      match parseJStr cs with
      | some (s, r) => some (String.singleton c ++ s, r)
      | none => none

/-- Take a maximal run of decimal digits. -/
def takeDigits : List Char → List Char × List Char
  | [] => ([], [])
  | c :: cs =>
    if c.isDigit then
      let p := takeDigits cs
      (c :: p.1, p.2)
    else ([], c :: cs)

/-- Integer part of a JSON number: `0` or a nonzero digit followed by digits. -/
def parseIntPart : List Char → Option (List Char × List Char)
  | [] => none
  | c :: cs =>
    if c = '0' then some ([c], cs)
    else if c.isDigit then
      let p := takeDigits cs
      some (c :: p.1, p.2)
    else none

/-- Optional fraction part `.digits`. -/
def parseFracPart : List Char → Option (List Char × List Char)
  | '.' :: cs =>
    let p := takeDigits cs
    if p.1.isEmpty then none else some ('.' :: p.1, p.2)
  | cs => some ([], cs)

/-- Optional exponent part `e|E [+|-] digits`. -/
def parseExpPart : List Char → Option (List Char × List Char)
  | c :: cs =>
    if c = 'e' ∨ c = 'E' then
      match cs with
      | s :: cs2 =>
        if s = '+' ∨ s = '-' then
          let p := takeDigits cs2
          if p.1.isEmpty then none else some (c :: s :: p.1, p.2)
        else
          let p := takeDigits (s :: cs2)
          if p.1.isEmpty then none else some (c :: p.1, p.2)
      | [] => none
    else some ([], c :: cs)
  | [] => some ([], [])

/-- Parse a JSON number (with Python's `-Infinity` extension), keeping the
lexeme. -/
def parseJNum : List Char → Option (String × List Char)
  | '-' :: cs =>
    match listStripPrefix "Infinity".toList cs with
    | some r => some ("-Infinity", r)
    | none =>
      match parseIntPart cs with
      | some (ip, cs1) =>
        match parseFracPart cs1 with
        | some (fp, cs2) =>
          match parseExpPart cs2 with
          | some (ep, cs3) => some (String.mk ('-' :: ip ++ fp ++ ep), cs3)
          | none => none
        | none => none
      | none => none
  | cs =>
    match parseIntPart cs with
    | some (ip, cs1) =>
      match parseFracPart cs1 with
      | some (fp, cs2) =>
        match parseExpPart cs2 with
        | some (ep, cs3) => some (String.mk (ip ++ fp ++ ep), cs3)
        | none => none
      | none => none
    | none => none

mutual

/-- Fuel-bounded recursive-descent JSON value parser (mirrors `json.loads`,
including its `NaN`/`Infinity` extensions). -/
def parseJVal : Nat → List Char → Option (JVal × List Char)
  | 0, _ => none
  | fuel + 1, cs =>
    match skipWs cs with
    | [] => none
    | c :: rest =>
      if c = '"' then
        match parseJStr rest with
        | some (s, r) => some (JVal.str s, r)
        | none => none
      else if c = lbraceC then
        match parseJObjFields fuel true rest with
        | some (fs, r) => some (JVal.obj fs, r)
        | none => none
      else if c = '[' then
        match parseJArrItems fuel true rest with
        | some (es, r) => some (JVal.arr es, r)
        | none => none
      else if c = 't' then
        match listStripPrefix "rue".toList rest with
        | some r => some (JVal.bool true, r)
        | none => none
      else if c = 'f' then
        match listStripPrefix "alse".toList rest with
        | some r => some (JVal.bool false, r)
        | none => none
      else if c = 'n' then
        match listStripPrefix "ull".toList rest with
        | some r => some (JVal.null, r)
        | none => none
      else if c = 'N' then
        match listStripPrefix "aN".toList rest with
        | some r => some (JVal.num "NaN", r)
        | none => none
      else if c = 'I' then
        match listStripPrefix "nfinity".toList rest with
        | some r => some (JVal.num "Infinity", r)
        | none => none
      else if c = '-' ∨ c.isDigit then
        match parseJNum (c :: rest) with
        | some (lit, r) => some (JVal.num lit, r)
        | none => none
      else none

/-- Object members after the opening brace. `first` is true before any member
was read, so that `\x7b\x7d` parses but a trailing comma does not. -/
def parseJObjFields : Nat → Bool → List Char → Option (List (String × JVal) × List Char)
  | 0, _, _ => none
  | fuel + 1, first, cs =>
    match skipWs cs with
    | [] => none
    | c :: rest =>
      if first ∧ c = rbraceC then some ([], rest)
      else if c = '"' then
        match parseJStr rest with
        | some (k, cs1) =>
          match skipWs cs1 with
          | ':' :: cs2 =>
            match parseJVal fuel cs2 with
            | some (v, cs3) =>
              match skipWs cs3 with
              | ',' :: cs4 =>
                match parseJObjFields fuel false cs4 with
                | some (fs, r) => some ((k, v) :: fs, r)
                | none => none
              | c2 :: cs4 =>
                if c2 = rbraceC then some ([(k, v)], cs4) else none
              | [] => none
            | none => none
          | _ => none
        | none => none
      else none

/-- Array items after the opening bracket. -/
def parseJArrItems : Nat → Bool → List Char → Option (List JVal × List Char)
  | 0, _, _ => none
  | fuel + 1, first, cs =>
    match skipWs cs with
    | [] => none
    | c :: rest =>
      if first ∧ c = ']' then some ([], rest)
      else
        match parseJVal fuel (c :: rest) with
        | some (v, cs1) =>
          match skipWs cs1 with
          | ',' :: cs2 =>
            match parseJArrItems fuel false cs2 with
            | some (es, r) => some (v :: es, r)
            | none => none
          | ']' :: cs2 => some ([v], cs2)
          | _ => none
        | none => none

end

/-- Model of `json.loads`: parse one document and require only whitespace to
remain; any failure is `none` (Python's `JSONDecodeError`). -/
def json_loads (s : String) : Option JVal :=
  match parseJVal (s.length + 4) s.toList with
  | some (v, rest) => if (skipWs rest).isEmpty then some v else none
  | none => none

/-- Python `\s` on ASCII input (space, tab, newline, return, formfeed,
vertical tab). -/
def isPyWs (c : Char) : Bool :=
  c = ' ' || c = '\t' || c = '\n' || c = '\r' || c = '\x0c' || c = '\x0b'

/-- Length of the maximal leading `\s` run. -/
def wsRunLen : List Char → Nat
  | [] => 0
  | c :: cs => if isPyWs c then wsRunLen cs + 1 else 0

/-- The three-backtick fence that opens and closes a directive block. -/
def fenceStr : String := "```"

/-- Whether the characters after a candidate closing brace complete the
pattern: the regex tail `\s*\n` followed by the closing fence. The `\s*\n`
is forced to consume the whole whitespace run, whose last character must be
a newline, because the next pattern character (a backtick) is not `\s`. -/
def closeFenceOk (cs : List Char) : Bool :=
  let q := wsRunLen cs
  q != 0 && (cs.getD (q - 1) ' ') == '\n' && (listStripPrefix fenceStr.toList (cs.drop q)).isSome

/-- The lazy `.*?` body of `(\x7b.*?\x7d)`: the shortest prefix whose next
character is a closing brace followed by a valid pattern tail. -/
def findBody : List Char → Option (List Char)
  | [] => none
  | c :: rest =>
    if c = rbraceC && closeFenceOk rest then some []
    else
      match findBody rest with
      | some body => some (c :: body)
      | none => none

/-- Try to match the whole block pattern anchored at the start of `cs`:
the fence and tag, `\s*\n` (forced to end at the run's last newline since
the next pattern character is a brace), the brace-delimited lazy body, and
a valid tail. Returns the captured group. -/
def matchBlockAt (block_type : String) (cs : List Char) : Option String :=
  match listStripPrefix (fenceStr ++ block_type).toList cs with
  | none => none
  | some cs1 =>
    let p := wsRunLen cs1
    if p != 0 && (cs1.getD (p - 1) ' ') == '\n' then
      match cs1.drop p with
      | c :: cs2 =>
        if c = lbraceC then
          match findBody cs2 with
          | some body => some (String.mk (lbraceC :: (body ++ [rbraceC])))
          | none => none
        else none
      | [] => none
    else none

/-- `re.search` with the block pattern: leftmost match wins. -/
def reSearchBlock (block_type : String) : List Char → Option String
  | [] => none
  | c :: cs =>
    match matchBlockAt block_type (c :: cs) with
    | some g => some g
    | none => reSearchBlock block_type cs

/-- Model of `Agent._parse_block`: extract the first fenced block tagged
`block_type` and JSON-parse its body; a `JSONDecodeError` is swallowed and
yields `none`. Never raises. -/
def parse_block (content block_type : String) : Option JVal :=
  match reSearchBlock block_type content.toList with
  | some g => json_loads g
  | none => none

/-- Quote a string as a JSON string literal (basic escapes; Python's
`json.dumps` additionally `\u`-escapes non-ASCII, which no claim observes). -/
def jStrQuote (s : String) : String :=
  let esc (c : Char) : String :=
    if c = '"' then "\\\""
    else if c = '\\' then "\\\\"
    else if c = '\n' then "\\n"
    else if c = '\t' then "\\t"
    else if c = '\r' then "\\r"
    else String.singleton c
  "\"" ++ String.join (s.toList.map esc) ++ "\""

mutual

/-- Model of `json.dumps` with the default separators. -/
def jDump : JVal → String
  | JVal.null => "null"
  | JVal.bool true => "true"
  | JVal.bool false => "false"
  | JVal.num lit => lit
  | JVal.str s => jStrQuote s
  | JVal.arr es => "[" ++ jDumpArr es ++ "]"
  | JVal.obj fs => String.singleton lbraceC ++ jDumpObj fs ++ String.singleton rbraceC

/-- Comma-joined array items. -/
def jDumpArr : List JVal → String
  | [] => ""
  | [v] => jDump v
  | v :: vs => jDump v ++ ", " ++ jDumpArr vs

/-- Comma-joined object members. -/
def jDumpObj : List (String × JVal) → String
  | [] => ""
  | [(k, v)] => jStrQuote k ++ ": " ++ jDump v
  | (k, v) :: fs => jStrQuote k ++ ": " ++ jDump v ++ ", " ++ jDumpObj fs

end

/-- Look a key up in an object's raw field list; the last binding wins, as in
the dict `json.loads` builds. -/
def jLookup (fields : List (String × JVal)) (k : String) : Option JVal :=
  fields.foldl (fun acc f => if f.1 = k then some f.2 else acc) none

/-- Python `d.get(k, default)` on a parsed JSON value. -/
def jGetD (v : JVal) (k : String) (d : JVal) : JVal :=
  match v with
  | JVal.obj fs => (jLookup fs k).getD d
  | _ => d

/-- Whether the mantissa of a JSON number lexeme is zero: no nonzero digit
before any exponent marker. -/
def numLitIsZero (lit : String) : Bool :=
  ((lit.toList.takeWhile (fun c => c ≠ 'e' ∧ c ≠ 'E')).filter
    (fun c => '1' ≤ c ∧ c ≤ '9')).isEmpty

/-- Python truth-value test (`if not x`) on a parsed JSON value. -/
def jFalsy : JVal → Bool
  | JVal.null => true
  | JVal.bool b => !b
  | JVal.num lit => numLitIsZero lit
  | JVal.str s => s.isEmpty
  | JVal.arr es => es.isEmpty
  | JVal.obj fs => fs.isEmpty

/-- Render a JSON value that Python would substitute into an f-string
(strings appear bare, everything else via its JSON shape). -/
def jValToStr : JVal → String
  | JVal.str s => s
  | v => jDump v

/-- Wrap a string in apostrophes, for Python's quoted error messages. -/
def pyQuote (s : String) : String := "\x27" ++ s ++ "\x27"

/-!
Insertion-ordered dictionaries (Python `dict`).
-/

/-- `d.get(k)` / `d[k]`: the value at the first entry whose key is `k`. -/
def dictGet (k : String) : List (String × α) → Option α
  | [] => none
  | e :: rest => if e.1 = k then some e.2 else dictGet k rest

/-- `d[k] = v`: update in place if the key exists (keeping its position),
else append a new entry at the end. -/
def dictInsert (k : String) (v : α) : List (String × α) → List (String × α)
  | [] => [(k, v)]
  | e :: rest => if e.1 = k then (k, v) :: rest else e :: dictInsert k v rest

/-- `del d[k]`: remove the (unique) entry with key `k`, if any. -/
def dictRemove (k : String) : List (String × α) → List (String × α)
  | [] => []
  | e :: rest => if e.1 = k then rest else e :: dictRemove k rest

/-!
Session store (agent/memory.py).
-/

/-- A `MemoryEvent`: one entry of a session's journal. -/
structure MemoryEvent where
  event_id : String
  timestamp : Nat
  event_type : String
  content : JVal
  metadata : List (String × JVal)

/-- A `SessionMemory`: one session with its ordered event list. -/
structure SessionMemory where
  session_id : String
  user_id : String
  app_name : String
  events : List MemoryEvent
  created_at : Nat
  updated_at : Nat

/-- `LocalMemory`: the in-memory session store with its two caps. -/
structure LocalMemory where
  sessions : List (String × SessionMemory)
  max_sessions : Nat
  max_events_per_session : Nat

/-- A fresh store, as built by `LocalMemory.__init__`. -/
def initMem (maxS maxE : Nat) : LocalMemory :=
  { sessions := [], max_sessions := maxS, max_events_per_session := maxE }

/-- Python `lst[-k:]`: the last `k` elements for `k > 0`, but the whole list
for `k = 0` (negative zero is zero, so `lst[-0:]` is `lst[0:]`). -/
def sliceLastPy (k : Nat) (l : List α) : List α :=
  if k = 0 then l else l.drop (l.length - k)

/-- `LocalMemory._cleanup_sessions_if_needed`: at or above the session cap,
stably sort the entries by `updated_at` and delete the oldest
`max(1, max_sessions // 10)` of them. -/
def cleanupSessions (m : LocalMemory) : LocalMemory :=
  if m.max_sessions ≤ m.sessions.length then
    let r := max 1 (m.max_sessions / 10)
    let sorted := m.sessions.insertionSort (fun a b => a.2.updated_at ≤ b.2.updated_at)
    let doomed := (sorted.take r).map Prod.fst
    { m with sessions := doomed.foldl (fun d k => dictRemove k d) m.sessions }
  else m

/-- `LocalMemory.create_session` with an explicit id (when Python generates
one, the caller passes the fresh id here): evict if needed, then store a
fresh `SessionMemory` under the id. -/
def create_session (m : LocalMemory) (app user sid : String) (now : Nat) :
    LocalMemory × String :=
  let m1 := cleanupSessions m
  ({ m1 with
      sessions := dictInsert sid
        { session_id := sid, user_id := user, app_name := app, events := [],
          created_at := now, updated_at := now } m1.sessions },
    sid)

/-- `LocalMemory.get_or_create_session`: create only when the id is absent. -/
def get_or_create_session (m : LocalMemory) (sid app user : String) (now : Nat) :
    LocalMemory × String :=
  match dictGet sid m.sessions with
  | some _ => (m, sid)
  | none => create_session m app user sid now

/-- `LocalMemory._cleanup_events_if_needed`: at or above the event cap keep
the most recent `int(cap * 0.8)` events via a negative slice. -/
def cleanupEvents (maxE : Nat) (s : SessionMemory) : SessionMemory :=
  if maxE ≤ s.events.length then
    { s with events := sliceLastPy (maxE * 4 / 5) s.events }
  else s

/-- `LocalMemory.add_event`: `False` and no change when the session is
missing; otherwise trim if needed, append, and bump `updated_at`. -/
def add_event (m : LocalMemory) (sid : String) (e : MemoryEvent) (now : Nat) :
    LocalMemory × Bool :=
  match dictGet sid m.sessions with
  | none => (m, false)
  | some s =>
    let s1 := cleanupEvents m.max_events_per_session s
    ({ m with
        sessions := dictInsert sid
          { s1 with events := s1.events ++ [e], updated_at := now } m.sessions },
      true)

/-- `LocalMemory.get_session_events` without a type filter (a missing session
yields `[]`). -/
def get_session_events (m : LocalMemory) (sid : String) : List MemoryEvent :=
  match dictGet sid m.sessions with
  | some s => s.events
  | none => []

/-- `LocalMemory.delete_session`. -/
def delete_session (m : LocalMemory) (sid : String) : LocalMemory × Bool :=
  match dictGet sid m.sessions with
  | some _ => ({ m with sessions := dictRemove sid m.sessions }, true)
  | none => (m, false)

/-- `LocalMemory.cleanup_old_sessions`, with the cutoff time passed in:
drop every session whose `updated_at` is strictly before it. -/
def cleanup_old_sessions (m : LocalMemory) (cutoff : Nat) : LocalMemory :=
  { m with sessions := m.sessions.filter (fun e => !(e.2.updated_at < cutoff)) }

/-- Fold `add_event` over a list of events (discarding the `Bool` results),
as a client inserting events one by one does. -/
def addEvents (m : LocalMemory) (sid : String) (es : List MemoryEvent) (now : Nat) :
    LocalMemory :=
  es.foldl (fun acc e => (add_event acc sid e now).1) m

/-- One mutating store operation, for stating store-wide invariants. -/
inductive MemOp where
  | create (app user sid : String)
  | getOrCreate (sid app user : String)
  | addEvent (sid : String) (e : MemoryEvent)
  | deleteSession (sid : String)
  | cleanupOld (cutoff : Nat)

/-- Apply one operation at logical time `now`. -/
def applyOp (now : Nat) (m : LocalMemory) : MemOp → LocalMemory
  | MemOp.create app user sid => (create_session m app user sid now).1
  | MemOp.getOrCreate sid app user => (get_or_create_session m sid app user now).1
  | MemOp.addEvent sid e => (add_event m sid e now).1
  | MemOp.deleteSession sid => (delete_session m sid).1
  | MemOp.cleanupOld cutoff => cleanup_old_sessions m cutoff

/-- Apply a timestamped operation sequence in order. -/
def applyOps (ops : List (Nat × MemOp)) (m : LocalMemory) : LocalMemory :=
  ops.foldl (fun acc p => applyOp p.1 acc p.2) m

/-- The resource bounds the store is meant to maintain. -/
def memBoundsOk (m : LocalMemory) : Bool :=
  decide (m.sessions.length ≤ m.max_sessions) &&
    m.sessions.all (fun e => decide (e.2.events.length ≤ m.max_events_per_session))

/-!
Exceptions and the agentic reasoning loop (agent/client.py).
-/

/-- The exception classes the loop distinguishes (`except ValueError`,
`except RuntimeError`, a blanket `except Exception`). -/
inductive Exc where
  | valueError (msg : String)
  | runtimeError (msg : String)
  | otherError (msg : String)
deriving DecidableEq

/-- Python `str(e)`. -/
def excMsg : Exc → String
  | Exc.valueError m => m
  | Exc.runtimeError m => m
  | Exc.otherError m => m

/-- Python `type(e).__name__` (the modelled class for `otherError` is bare
`Exception`). -/
def excName : Exc → String
  | Exc.valueError _ => "ValueError"
  | Exc.runtimeError _ => "RuntimeError"
  | Exc.otherError _ => "Exception"

/-- One chat message. -/
structure Msg where
  role : String
  content : String
deriving DecidableEq

/-- The loop's external collaborators as pure call tables: the model backend,
the MCP tool bridge (`tool_name in client._tools` plus `call_tool`), and the
sub-agent registry with `RemoteAgent.process_message`. An `Except.error`
models the call raising. -/
structure LoopEnv where
  modelCall : List Msg → Except Exc String
  availableTool : String → Bool
  callTool : String → JVal → Except Exc JVal
  hasSubAgent : String → Bool
  subAgentCall : String → List Msg → Except Exc String

/-- The `Agent` configuration fields the loop reads. -/
structure AgentCfg where
  name : String
  max_steps : Nat
  memory_context_limit : Nat

/-- The mutable state threaded through one `process_message` call: the
working conversation, the memory store, the chunks yielded so far, the
number of tool invocations performed, and a logical clock that stands in
for `datetime.now` and the uuid-based event ids. -/
structure LoopState where
  messages : List Msg
  mem : LocalMemory
  chunks : List String
  toolCalls : Nat
  clock : Nat

/-- `LocalMemory.create_event` at a clock tick (uuid modelled by the tick). -/
def mkEvent (clock : Nat) (ty : String) (content : JVal) : MemoryEvent :=
  { event_id := "event_" ++ toString clock, timestamp := clock,
    event_type := ty, content := content, metadata := [] }

/-- `create_event` followed by `add_event` on the current session. -/
def recordEvent (sid ty : String) (content : JVal) (st : LoopState) : LoopState :=
  { st with
      mem := (add_event st.mem sid (mkEvent st.clock ty content) st.clock).1,
      clock := st.clock + 1 }

/-- Append the model's text and a follow-up user message to the working
conversation (the shape every `continue` branch of the loop uses). -/
def appendExchange (content reply : String) (st : LoopState) : LoopState :=
  { st with messages := st.messages ++ [Msg.mk "assistant" content, Msg.mk "user" reply] }

/-- Streaming emission: `content.split()` with a trailing separator on each
word. -/
def streamChunks (content : String) : List String :=
  ((content.split (fun c => c.isWhitespace)).filter (fun w => !w.isEmpty)).map
    (fun w => w ++ " ")

/-- The fixed diagnostic termination message. -/
def maxStepsMsg (k : Nat) : String :=
  "Reached maximum reasoning steps (" ++ toString k ++ ")"

/-- Model of `Agent._agentic_loop` (client.py:401-509). The fuel is the
remaining `range(max_steps)` iterations. The second component is the
exception escaping the loop, if any; chunks yielded before it stay in the
state, matching generator semantics. -/
def agenticLoop (env : LoopEnv) (cfg : AgentCfg) (sid : String) (stream : Bool) :
    Nat → LoopState → LoopState × Option Exc
  | 0, st => ({ st with chunks := st.chunks ++ [maxStepsMsg cfg.max_steps] }, none)
  | fuel + 1, st =>
    match env.modelCall st.messages with
    | Except.error e => (st, some e)
    | Except.ok content =>
      match parse_block content "tool_call" with
      | some tc =>
        let st1 := recordEvent sid "tool_call" tc st
        let toolNameV := jGetD tc "tool" (JVal.str "")
        if jFalsy toolNameV then
          agenticLoop env cfg sid stream fuel
            (appendExchange content "Tool execution failed: Tool name not specified" st1)
        else
          match toolNameV with
          | JVal.str tname =>
            if env.availableTool tname then
              let st2 := { st1 with toolCalls := st1.toolCalls + 1 }
              match env.callTool tname (jGetD tc "arguments" (JVal.obj [])) with
              | Except.ok r =>
                let st3 := recordEvent sid "tool_result"
                  (JVal.obj [("tool", JVal.str tname), ("result", r)]) st2
                agenticLoop env cfg sid stream fuel
                  (appendExchange content ("Tool result: " ++ jDump r) st3)
              | Except.error e =>
                agenticLoop env cfg sid stream fuel
                  (appendExchange content ("Tool execution failed: " ++ excMsg e) st2)
            else
              agenticLoop env cfg sid stream fuel
                (appendExchange content
                  ("Tool execution failed: Tool " ++ pyQuote tname ++ " not found") st1)
          | _ =>
            agenticLoop env cfg sid stream fuel
              (appendExchange content
                ("Tool execution failed: Tool " ++ pyQuote (jValToStr toolNameV) ++ " not found")
                st1)
      | none =>
        match parse_block content "delegate" with
        | some d =>
          let agentV := jGetD d "agent" (JVal.str "")
          let taskV := jGetD d "task" (JVal.str "")
          if jFalsy agentV || jFalsy taskV then
            agenticLoop env cfg sid stream fuel
              (appendExchange content
                "Invalid delegation: missing \x27agent\x27 or \x27task\x27" st)
          else
            match agentV with
            | JVal.str aname =>
              if env.hasSubAgent aname then
                let task := jValToStr taskV
                let st1 := recordEvent sid "delegation_request"
                  (JVal.obj [("agent", JVal.str aname), ("task", taskV)]) st
                let ctx := st.messages.filter (fun msg => msg.role != "system")
                let dmsgs := sliceLastPy cfg.memory_context_limit ctx ++
                  [Msg.mk "task-delegation" task]
                match env.subAgentCall aname dmsgs with
                | Except.ok r =>
                  let st2 := recordEvent sid "delegation_response"
                    (JVal.obj [("agent", JVal.str aname), ("response", JVal.str r)]) st1
                  agenticLoop env cfg sid stream fuel
                    (appendExchange content ("Agent response: " ++ r) st2)
                | Except.error (Exc.runtimeError emsg) =>
                  let st2 := recordEvent sid "delegation_error"
                    (JVal.obj [("agent", JVal.str aname), ("error", JVal.str emsg)]) st1
                  agenticLoop env cfg sid stream fuel
                    (appendExchange content
                      ("Agent response: [Delegation failed: " ++ emsg ++ "]") st2)
                | Except.error e => (st1, some e)
              else
                agenticLoop env cfg sid stream fuel
                  (appendExchange content
                    ("Delegation failed: Sub-agent " ++ pyQuote aname ++ " not found") st)
            | _ =>
              agenticLoop env cfg sid stream fuel
                (appendExchange content
                  ("Delegation failed: Sub-agent " ++ pyQuote (jValToStr agentV) ++ " not found")
                  st)
        | none =>
          let st1 := recordEvent sid "agent_response" (JVal.str content) st
          let outs := if stream then streamChunks content else [content]
          ({ st1 with chunks := st1.chunks ++ outs }, none)

/-- Session resolution at the top of `Agent.process_message`: a provided id
goes through get-or-create, an absent one creates a session under a fresh
generated id. -/
def sessionOf (m0 : LocalMemory) (sidOpt : Option String) (freshId : String) (now : Nat) :
    LocalMemory × String :=
  match sidOpt with
  | some s => get_or_create_session m0 s "agent" "user" now
  | none => create_session m0 "agent" "user" freshId now

/-- The state entering the loop for a plain string message: the system
prompt, the recorded `user_message` event, and the user message itself. -/
def initLoopState (sysPrompt message sid : String) (m1 : LocalMemory) (now : Nat) :
    LoopState :=
  let st0 : LoopState :=
    { messages := [Msg.mk "system" sysPrompt], mem := m1, chunks := [],
      toolCalls := 0, clock := now }
  let st1 := recordEvent sid "user_message" (JVal.str message) st0
  { st1 with messages := st1.messages ++ [Msg.mk "user" message] }

/-- What one `Agent.process_message` call leaves behind. -/
structure ProcResult where
  chunks : List String
  mem : LocalMemory
  toolCalls : Nat

/-- Model of `Agent.process_message` for a plain string message: resolve the
session, record the user event, run the loop, and convert an escaping
exception into an `error` event plus a single apologetic chunk — the caller
never sees an exception. -/
def processMessage (env : LoopEnv) (cfg : AgentCfg) (sysPrompt message : String)
    (sidOpt : Option String) (freshId : String) (stream : Bool) (m0 : LocalMemory)
    (now : Nat) : ProcResult :=
  let ms := sessionOf m0 sidOpt freshId now
  let st0 := initLoopState sysPrompt message ms.2 ms.1 now
  match agenticLoop env cfg ms.2 stream cfg.max_steps st0 with
  | (stF, none) => { chunks := stF.chunks, mem := stF.mem, toolCalls := stF.toolCalls }
  | (stF, some e) =>
    let stE := recordEvent ms.2 "error"
      (JVal.str ("Error processing message: " ++ excMsg e)) stF
    { chunks := stF.chunks ++ ["Sorry, I encountered an error: " ++ excMsg e],
      mem := stE.mem, toolCalls := stF.toolCalls }

/-!
Peer-agent handle (agent/client.py, RemoteAgent).
-/

/-- The discovery card cached on a handle (field values stay raw JSON). -/
structure AgentCard where
  name : JVal
  description : JVal
  url : String
  skills : JVal
  capabilities : JVal

/-- A `RemoteAgent` handle's state. -/
structure RemoteAgentState where
  name : String
  card_url : String
  agent_card : Option AgentCard
  active : Bool

/-- Strip trailing slashes, as `url.rstrip("/")` does. -/
def rstripSlash (s : String) : String :=
  String.mk ((s.toList.reverse.dropWhile (fun c => c = '/')).reverse)

/-- `RemoteAgent.__init__`: a fresh handle is inactive with no card. -/
def RemoteAgent_new (name url : String) : RemoteAgentState :=
  { name := name, card_url := rstripSlash url, agent_card := none, active := false }

/-- `RemoteAgent._init`: fetch the card (`fetch` is the discovery response,
an `Except.error` modelling any raised exception); success caches the card
and activates, any failure deactivates and reports `False`. -/
def RemoteAgent_init (ra : RemoteAgentState) (fetch : Except Exc JVal) :
    RemoteAgentState × Bool :=
  match fetch with
  | Except.ok data =>
    ({ ra with
        agent_card := some
          { name := jGetD data "name" (JVal.str ra.name),
            description := jGetD data "description" (JVal.str ""),
            url := ra.card_url,
            skills := jGetD data "skills" (JVal.arr []),
            capabilities := jGetD data "capabilities" (JVal.arr []) },
        active := true },
      true)
  | Except.error _ => ({ ra with active := false }, false)

/-- `RemoteAgent.process_message`: ensure activation (retrying the card fetch
when inactive), then post to the completion endpoint (`post` models the
request plus response-field extraction); any failure deactivates the handle
and raises `RuntimeError`. -/
def RemoteAgent_process_message (ra : RemoteAgentState) (_msgs : List Msg)
    (fetch : Except Exc JVal) (post : Except Exc String) :
    RemoteAgentState × Except Exc String :=
  match (if ra.active then (ra, true) else RemoteAgent_init ra fetch) with
  | (ra1, false) =>
    (ra1, Except.error (Exc.runtimeError
      ("Agent " ++ ra.name ++ " unavailable at " ++ ra.card_url)))
  | (ra1, true) =>
    match post with
    | Except.ok content => (ra1, Except.ok content)
    | Except.error e =>
      ({ ra1 with active := false },
        Except.error (Exc.runtimeError
          ("Agent " ++ ra.name ++ ": " ++ excName e ++ ": " ++ excMsg e)))

/-!
Telemetry span stack (telemetry/manager.py).
-/

/-- A `SpanState` record on the explicit span stack. -/
structure SpanRec where
  name : String
  startTime : Nat
  metricKind : Option String
  ended : Bool
deriving DecidableEq

/-- The observable state of `KaosOtelManager` plus the process-global
`_initialized` flag: the context-local stack (top is the last element), the
log of ended spans `(name, success)` in end order, and the metrics emitted
`(metric kind, success)`. -/
structure Tracker where
  initialized : Bool
  stack : List SpanRec
  endedLog : List (String × Bool)
  metricsLog : List (String × Bool)
deriving DecidableEq

/-- `span_begin`: no-op when OTel is uninitialized, else push a fresh
(unended) record. -/
def span_begin (t : Tracker) (name : String) (now : Nat) (metricKind : Option String) :
    Tracker :=
  if !t.initialized then t
  else
    { t with stack := t.stack ++ [SpanRec.mk name now metricKind false] }

/-- `span_success`: no-op when uninitialized, the stack is empty, or the top
record is marked ended; otherwise end the top record, emit its metric with a
success label, and pop it. -/
def span_success (t : Tracker) : Tracker :=
  if !t.initialized then t
  else
    match t.stack.getLast? with
    | none => t
    | some top =>
      if top.ended then t
      else
        { t with
            stack := t.stack.dropLast,
            endedLog := t.endedLog ++ [(top.name, true)],
            metricsLog := t.metricsLog ++
              (match top.metricKind with
               | some k => [(k, true)]
               | none => []) }

/-- `span_failure`: like `span_success` but records the exception and a
failure label. -/
def span_failure (t : Tracker) (_emsg : String) : Tracker :=
  if !t.initialized then t
  else
    match t.stack.getLast? with
    | none => t
    | some top =>
      if top.ended then t
      else
        { t with
            stack := t.stack.dropLast,
            endedLog := t.endedLog ++ [(top.name, false)],
            metricsLog := t.metricsLog ++
              (match top.metricKind with
               | some k => [(k, false)]
               | none => []) }

/-- What the loop boundary relies on: running the loop never removes a
session from the store, and when an exception escapes, no chunk was yielded
during the run (every yield lies on the normal-return path). -/
def loopSafe (env : LoopEnv) (cfg : AgentCfg) (sid : String) (stream : Bool)
    (fuel : Nat) (st : LoopState) : Prop :=
  (∀ sid', (dictGet sid' st.mem.sessions).isSome →
    (dictGet sid' (agenticLoop env cfg sid stream fuel st).1.mem.sessions).isSome) ∧
  ∀ e, (agenticLoop env cfg sid stream fuel st).2 = some e →
    (agenticLoop env cfg sid stream fuel st).1.chunks = st.chunks

/-!
Concrete fixtures used by witnesses and counterexamples.
-/

/-- A concrete event, indexed so fixtures can tell events apart. -/
def sampleEvent (i : Nat) : MemoryEvent :=
  { event_id := toString i, timestamp := i, event_type := "user_message",
    content := JVal.null, metadata := [] }

/-- A model response carrying one well-formed `tool_call` directive. -/
def demoToolContent : String :=
  "```tool_call\n\x7b\"tool\": \"calc\", \"arguments\": \x7b\x7d\x7d\n```"

/-- An environment whose model always answers with the same tool directive
for the available tool `calc`. -/
def demoToolEnv : LoopEnv :=
  { modelCall := fun _ => Except.ok demoToolContent,
    availableTool := fun s => s == "calc",
    callTool := fun _ _ => Except.ok (JVal.str "8"),
    hasSubAgent := fun _ => false,
    subAgentCall := fun _ _ => Except.error (Exc.runtimeError "unreachable") }

/-- An environment whose model call always raises. -/
def demoErrEnv : LoopEnv :=
  { demoToolEnv with modelCall := fun _ => Except.error (Exc.otherError "boom") }

/-- An environment whose model answers plain text with no directive. -/
def demoPlainEnv : LoopEnv :=
  { demoToolEnv with modelCall := fun _ => Except.ok "plain answer" }

/-- A small agent configuration. -/
def demoCfg : AgentCfg := { name := "agent", max_steps := 3, memory_context_limit := 6 }

/-- An initialized tracker with an empty span stack. -/
def demoTracker : Tracker :=
  { initialized := true, stack := [], endedLog := [], metricsLog := [] }

/-- The tracker after `span_begin parent; span_begin child; span_failure`:
the child record is ended and popped, the parent record is still open. -/
def demoTrackerAfterClose : Tracker :=
  span_failure (span_begin (span_begin demoTracker "parent" 0 (some "request"))
    "child" 1 none) "boom"

/-- The resource bounds as a proposition (what `memBoundsOk` decides). -/
def memInv (m : LocalMemory) : Prop :=
  m.sessions.length ≤ m.max_sessions ∧
    ∀ p ∈ m.sessions, p.2.events.length ≤ m.max_events_per_session

/-!
Dictionary lemmas.
-/

theorem dictGet_dictInsert (k k' : String) (v : α) (d : List (String × α)) :
    dictGet k' (dictInsert k v d) = if k' = k then some v else dictGet k' d := by
  induction d with
  | nil =>
    by_cases h : k' = k <;> simp [dictInsert, dictGet, h, Ne.symm]
  | cons e rest ih =>
    by_cases h1 : e.1 = k
    · by_cases h2 : k' = k
      · subst h2
        simp_all [dictInsert, dictGet]
      · have h3 : ¬(k = k') := fun hh => h2 hh.symm
        simp_all [dictInsert, dictGet]
    · by_cases h2 : e.1 = k' <;> simp_all [dictInsert, dictGet]

theorem dictGet_dictInsert_self (k : String) (v : α) (d : List (String × α)) :
    dictGet k (dictInsert k v d) = some v := by
  simp [dictGet_dictInsert]

theorem dictGet_isSome_dictInsert (k k' : String) (v : α) (d : List (String × α))
    (h : (dictGet k' d).isSome) : (dictGet k' (dictInsert k v d)).isSome := by
  rw [dictGet_dictInsert]
  by_cases hk : k' = k <;> simp [hk, h]

theorem length_dictInsert_le (k : String) (v : α) (d : List (String × α)) :
    (dictInsert k v d).length ≤ d.length + 1 := by
  induction d with
  | nil => simp [dictInsert]
  | cons e rest ih =>
    by_cases h : e.1 = k <;> simp [dictInsert, h] <;> omega

theorem length_dictInsert_of_isSome (k : String) (v : α) (d : List (String × α))
    (h : (dictGet k d).isSome) : (dictInsert k v d).length = d.length := by
  induction d with
  | nil => simp [dictGet] at h
  | cons e rest ih =>
    by_cases he : e.1 = k
    · simp [dictInsert, he]
    · simp [dictGet, he] at h
      simp [dictInsert, he, ih h]

theorem length_dictRemove_le (k : String) (d : List (String × α)) :
    (dictRemove k d).length ≤ d.length := by
  induction d with
  | nil => simp [dictRemove]
  | cons e rest ih =>
    by_cases h : e.1 = k <;> simp [dictRemove, h] <;> omega

theorem length_dictRemove_of_isSome (k : String) (d : List (String × α))
    (h : (dictGet k d).isSome) : (dictRemove k d).length + 1 = d.length := by
  induction d with
  | nil => simp [dictGet] at h
  | cons e rest ih =>
    by_cases he : e.1 = k
    · simp [dictRemove, he]
    · simp [dictGet, he] at h
      simp [dictRemove, he, ih h]

theorem mem_dictRemove (k : String) (d : List (String × α)) (a : String × α)
    (h : a ∈ dictRemove k d) : a ∈ d := by
  induction d with
  | nil => simp [dictRemove] at h
  | cons e rest ih =>
    by_cases he : e.1 = k
    · simp [dictRemove, he] at h
      simp [h]
    · simp [dictRemove, he] at h
      rcases h with h | h
      · simp [h]
      · simp [ih h]

theorem mem_dictInsert (k : String) (v : α) (d : List (String × α)) (a : String × α)
    (h : a ∈ dictInsert k v d) : a = (k, v) ∨ a ∈ d := by
  induction d with
  | nil => simpa [dictInsert] using h
  | cons e rest ih =>
    by_cases he : e.1 = k
    · simp [dictInsert, he] at h
      rcases h with h | h
      · exact Or.inl (by simp [h])
      · exact Or.inr (by simp [h])
    · simp [dictInsert, he] at h
      rcases h with h | h
      · exact Or.inr (by simp [h])
      · rcases ih h with h2 | h2
        · exact Or.inl h2
        · exact Or.inr (by simp [h2])

theorem dictGet_mem (k : String) (d : List (String × α)) (v : α)
    (h : dictGet k d = some v) : (k, v) ∈ d := by
  induction d with
  | nil => simp [dictGet] at h
  | cons e rest ih =>
    by_cases he : e.1 = k
    · simp [dictGet, he] at h
      exact List.mem_cons.mpr (Or.inl (by cases e; simp_all))
    · simp [dictGet, he] at h
      exact List.mem_cons_of_mem _ (ih h)

theorem mem_dictGet_isSome (d : List (String × α)) (a : String × α)
    (h : a ∈ d) : (dictGet a.1 d).isSome := by
  induction d with
  | nil => simp at h
  | cons e rest ih =>
    rcases List.mem_cons.mp h with h | h
    · simp [dictGet, h]
    · by_cases he : e.1 = a.1 <;> simp [dictGet, he, ih h]

/-!
Store operation lemmas.
-/

theorem add_event_caps (m : LocalMemory) (sid : String) (e : MemoryEvent) (now : Nat) :
    (add_event m sid e now).1.max_events_per_session = m.max_events_per_session ∧
      (add_event m sid e now).1.max_sessions = m.max_sessions := by
  unfold add_event
  cases dictGet sid m.sessions <;> simp

theorem add_event_get_self (m : LocalMemory) (sid : String) (e : MemoryEvent)
    (now : Nat) (s : SessionMemory) (h : dictGet sid m.sessions = some s) :
    dictGet sid (add_event m sid e now).1.sessions =
      some { cleanupEvents m.max_events_per_session s with
        events := (cleanupEvents m.max_events_per_session s).events ++ [e],
        updated_at := now } := by
  simp [add_event, h, dictGet_dictInsert_self]

theorem add_event_isSome (m : LocalMemory) (sid sid' : String) (e : MemoryEvent)
    (now : Nat) (h : (dictGet sid' m.sessions).isSome) :
    (dictGet sid' (add_event m sid e now).1.sessions).isSome := by
  unfold add_event
  cases hg : dictGet sid m.sessions with
  | none => simpa using h
  | some s => simpa using dictGet_isSome_dictInsert sid sid' _ m.sessions h

theorem cleanupEvents_of_lt (maxE : Nat) (s : SessionMemory)
    (h : s.events.length < maxE) : cleanupEvents maxE s = s := by
  unfold cleanupEvents
  simp [Nat.not_le.mpr h]

theorem addEvents_caps (sid : String) (now : Nat) (es : List MemoryEvent) :
    ∀ m : LocalMemory,
      (addEvents m sid es now).max_events_per_session = m.max_events_per_session := by
  induction es with
  | nil => intro m; simp [addEvents]
  | cons e rest ih =>
    intro m
    show (addEvents (add_event m sid e now).1 sid rest now).max_events_per_session = _
    rw [ih]
    exact (add_event_caps m sid e now).1

theorem addEvents_no_trim (sid : String) (now : Nat) (es : List MemoryEvent) :
    ∀ (m : LocalMemory) (s : SessionMemory),
      dictGet sid m.sessions = some s →
      s.events.length + es.length ≤ m.max_events_per_session →
      ∃ s', dictGet sid (addEvents m sid es now).sessions = some s' ∧
        s'.events = s.events ++ es := by
  induction es with
  | nil =>
    intro m s h _
    exact ⟨s, by simpa [addEvents] using h, by simp⟩
  | cons e rest ih =>
    intro m s h hlen
    have hlt : s.events.length < m.max_events_per_session := by
      simp at hlen
      omega
    have hstep := add_event_get_self m sid e now s h
    rw [cleanupEvents_of_lt _ _ hlt] at hstep
    have hcap := (add_event_caps m sid e now).1
    have hlen2 : (({ s with events := s.events ++ [e], updated_at := now } :
        SessionMemory).events.length + rest.length ≤
        (add_event m sid e now).1.max_events_per_session) := by
      simp [hcap]
      simp at hlen
      omega
    have hrec := ih (add_event m sid e now).1 _ hstep hlen2
    rcases hrec with ⟨s', hg, hev⟩
    refine ⟨s', ?_, ?_⟩
    · simpa [addEvents] using hg
    · simp at hev
      simp [hev]

/-!
Claim C7: get-or-create idempotence.
-/

/-- C7: calling `get_or_create_session` twice with the same id creates the
session at most once: the first call returns the id (creating the session
when absent), and the second call returns the store completely unchanged
(hence the same session count and the same stored session with its
events). -/
theorem get_or_create_idempotent (m : LocalMemory) (sid app user : String)
    (now1 now2 : Nat) :
    get_or_create_session (get_or_create_session m sid app user now1).1 sid app user now2
        = ((get_or_create_session m sid app user now1).1, sid) ∧
      (get_or_create_session m sid app user now1).2 = sid ∧
      (dictGet sid (get_or_create_session m sid app user now1).1.sessions).isSome := by
  cases hg : dictGet sid m.sessions with
  | some s => simp [get_or_create_session, hg]
  | none => simp [get_or_create_session, hg, create_session, dictGet_dictInsert_self]

/-!
Claim C9: add_event on a missing session.
-/

/-- C9: for a session id not in the store, `add_event` returns `False` and
leaves the store completely unchanged — no session is created and the event
is dropped (and, being a total function, it raises nothing). -/
theorem add_event_missing_session (m : LocalMemory) (sid : String) (e : MemoryEvent)
    (now : Nat) (h : dictGet sid m.sessions = none) :
    add_event m sid e now = (m, false) := by
  simp [add_event, h]

/-- Witness for C9 at a concrete empty store. -/
theorem add_event_missing_session_witness :
    add_event (initMem 3 3) "s" (sampleEvent 0) 0 = (initMem 3 3, false) :=
  add_event_missing_session (initMem 3 3) "s" (sampleEvent 0) 0 rfl

/-!
Claim C10: create_session replaces an existing session.
-/

/-- C10: `create_session` called with an id that already exists overwrites
the stored session with a fresh one — empty event list, both timestamps
reset to now — while `get_or_create_session` on the same store leaves it
untouched; only the latter checks for an existing session. -/
theorem create_session_replaces (m : LocalMemory) (app user sid : String)
    (now : Nat) (old : SessionMemory) (h : dictGet sid m.sessions = some old) :
    dictGet sid (create_session m app user sid now).1.sessions =
        some (SessionMemory.mk sid user app [] now now) ∧
      get_or_create_session m sid app user now = (m, sid) := by
    constructor
    · simp [create_session, dictGet_dictInsert_self]
    · simp [get_or_create_session, h]

/-- Witness for C10: a store holding a session `s` with one event; creating
`s` again resets it. -/
theorem create_session_replaces_witness :
    dictGet "s"
        (create_session
          (addEvents (create_session (initMem 4 4) "app" "u" "s" 0).1 "s"
            [sampleEvent 0] 1)
          "app2" "u2" "s" 7).1.sessions =
      some (SessionMemory.mk "s" "u2" "app2" [] 7 7) :=
  (create_session_replaces
    (addEvents (create_session (initMem 4 4) "app" "u" "s" 0).1 "s" [sampleEvent 0] 1)
    "app2" "u2" "s" 7 (SessionMemory.mk "s" "u" "app" [sampleEvent 0] 0 1) rfl).1

/-!
Claim C1: event eviction. `add_event` trims to `int(cap * 0.8)` and then
appends, so a freshly filled session ends the (cap+1)-th insert with
`floor(0.8 cap) + 1` events, not `ceil(0.8 cap)`; the two disagree exactly
when the cap is a multiple of 5 (e.g. the default cap 500).
-/

/-- C1 counterexample: with `maxEventsPerSession = 5`, inserting 6 events
into a fresh session leaves 5 events, while the claim's `ceil(0.8 × 5)`
is 4. -/
theorem eviction_ceil_counterexample :
    (get_session_events
        (addEvents (create_session (initMem 10 5) "app" "u" "s" 0).1 "s"
          ((List.range 6).map sampleEvent) 1) "s").length = 5 ∧
      ((4 * 5 + 4) / 5 : Nat) = 4 := by
  constructor
  · rfl
  · norm_num

/-- C1 as amended: for `maxEventsPerSession = M ≥ 2`, inserting `M + 1`
events into a session that starts empty leaves exactly `floor(0.8 × M) + 1`
events, and they are exactly the most recently added ones (the result is the
suffix of the inserted list from index `M - floor(0.8 × M)`, so the oldest
events were dropped first). For `M = 1` Python's `events[-0:]` slice keeps
everything, so the bound needs `M ≥ 2`. -/
theorem eviction_floor_plus_one (m0 : LocalMemory) (sid : String) (s0 : SessionMemory)
    (es : List MemoryEvent) (now M : Nat)
    (hcap : m0.max_events_per_session = M) (hM : 2 ≤ M)
    (hget : dictGet sid m0.sessions = some s0) (hempty : s0.events = [])
    (hlen : es.length = M + 1) :
    get_session_events (addEvents m0 sid es now) sid = es.drop (M - M * 4 / 5) ∧
      (get_session_events (addEvents m0 sid es now) sid).length = M * 4 / 5 + 1 := by
  have hk1 : 1 ≤ M * 4 / 5 := by omega
  have hkM : M * 4 / 5 ≤ M := by omega
  have htd : es.take M ++ es.drop M = es := List.take_append_drop M es
  have hdlen : (es.drop M).length = 1 := by
    rw [List.length_drop]
    omega
  obtain ⟨lastE, hle⟩ := List.length_eq_one.mp hdlen
  have htlen : (es.take M).length = M := by
    rw [List.length_take]
    omega
  have hall : addEvents m0 sid es now =
      (add_event (addEvents m0 sid (es.take M) now) sid lastE now).1 := by
    conv_lhs => rw [← htd, hle]
    simp [addEvents, List.foldl_append]
  obtain ⟨sA, hgA, hevA⟩ :=
    addEvents_no_trim sid now (es.take M) m0 s0 hget
      (by rw [hempty, htlen, hcap]; simp)
  have hevA2 : sA.events = es.take M := by
    rw [hevA, hempty]
    simp
  have hcapA : (addEvents m0 sid (es.take M) now).max_events_per_session = M := by
    rw [addEvents_caps]
    exact hcap
  have hsAlen : sA.events.length = M := by rw [hevA2]; exact htlen
  have hclean : cleanupEvents (addEvents m0 sid (es.take M) now).max_events_per_session sA
      = { sA with events := sA.events.drop (M - M * 4 / 5) } := by
    unfold cleanupEvents
    rw [hcapA, hsAlen]
    simp only [le_refl, if_true]
    unfold sliceLastPy
    rw [hsAlen]
    simp [Nat.ne_of_gt hk1]
  have hfin := add_event_get_self (addEvents m0 sid (es.take M) now) sid lastE now sA hgA
  rw [hclean] at hfin
  have hres : get_session_events (addEvents m0 sid es now) sid =
      (es.take M).drop (M - M * 4 / 5) ++ [lastE] := by
    rw [hall]
    unfold get_session_events
    rw [hfin]
    simp [hevA2]
  constructor
  · rw [hres]
    conv_rhs => rw [← htd, hle]
    rw [List.drop_append_of_le_length (by omega)]
  · rw [hres]
    simp [List.length_drop, htlen]
    omega

/-- Witness for the amended C1 at `M = 7`: 8 inserts leave the last
`floor(5.6) + 1 = 6` events. -/
theorem eviction_floor_plus_one_witness :
    get_session_events
        (addEvents (create_session (initMem 10 7) "app" "u" "s" 0).1 "s"
          ((List.range 8).map sampleEvent) 1) "s"
      = ((List.range 8).map sampleEvent).drop 2 :=
  (eviction_floor_plus_one (create_session (initMem 10 7) "app" "u" "s" 0).1 "s"
    (SessionMemory.mk "s" "u" "app" [] 0 0) ((List.range 8).map sampleEvent) 1 7
    rfl (by norm_num) rfl rfl rfl).1

/-!
Claim C8: store-wide resource bounds.
-/

theorem memBoundsOk_iff_memInv (m : LocalMemory) :
    memBoundsOk m = true ↔ memInv m := by
  simp [memBoundsOk, memInv]

theorem cleanupSessions_caps (m : LocalMemory) :
    (cleanupSessions m).max_sessions = m.max_sessions ∧
      (cleanupSessions m).max_events_per_session = m.max_events_per_session := by
  unfold cleanupSessions
  split <;> simp

theorem mem_foldl_dictRemove (ks : List String) :
    ∀ (d : List (String × α)) (a : String × α),
      a ∈ ks.foldl (fun d k => dictRemove k d) d → a ∈ d := by
  induction ks with
  | nil => intro d a h; simpa using h
  | cons k rest ih =>
    intro d a h
    exact mem_dictRemove k d a (ih (dictRemove k d) a h)

theorem length_foldl_dictRemove_le (ks : List String) :
    ∀ d : List (String × α),
      (ks.foldl (fun d k => dictRemove k d) d).length ≤ d.length := by
  induction ks with
  | nil => intro d; simp
  | cons k rest ih =>
    intro d
    exact le_trans (ih (dictRemove k d)) (length_dictRemove_le k d)

theorem mem_cleanupSessions (m : LocalMemory) (a : String × SessionMemory)
    (h : a ∈ (cleanupSessions m).sessions) : a ∈ m.sessions := by
  unfold cleanupSessions at h
  split at h
  · exact mem_foldl_dictRemove _ _ _ h
  · exact h

theorem cleanupSessions_length_lt (m : LocalMemory)
    (h1 : 1 ≤ m.max_sessions) (hfull : m.max_sessions ≤ m.sessions.length) :
    (cleanupSessions m).sessions.length < m.sessions.length := by
  have hperm := List.perm_insertionSort
    (fun (a b : String × SessionMemory) => a.2.updated_at ≤ b.2.updated_at) m.sessions
  have hlen : (m.sessions.insertionSort
      (fun a b => a.2.updated_at ≤ b.2.updated_at)).length = m.sessions.length :=
    hperm.length_eq
  have key : ∀ (sorted : List (String × SessionMemory)) (r : Nat), 1 ≤ r →
      sorted ≠ [] → (∀ x ∈ sorted, x ∈ m.sessions) →
      (((sorted.take r).map Prod.fst).foldl
          (fun d k => dictRemove k d) m.sessions).length < m.sessions.length := by
    intro sorted r hr hne hsub
    cases sorted with
    | nil => simp at hne
    | cons s0 tail =>
      obtain ⟨r2, hr2⟩ : ∃ r2, r = r2 + 1 := ⟨r - 1, by omega⟩
      subst hr2
      simp only [List.take_succ_cons, List.map_cons, List.foldl_cons]
      have hmem0 : s0 ∈ m.sessions := hsub s0 (by simp)
      have hsome : (dictGet s0.1 m.sessions).isSome := mem_dictGet_isSome _ _ hmem0
      have h5 := length_dictRemove_of_isSome s0.1 m.sessions hsome
      have h6 := length_foldl_dictRemove_le ((tail.take r2).map Prod.fst)
        (dictRemove s0.1 m.sessions)
      omega
  unfold cleanupSessions
  rw [if_pos hfull]
  apply key
  · omega
  · apply List.ne_nil_of_length_pos
    omega
  · intro x hx
    exact hperm.mem_iff.mp hx

theorem create_session_inv (m : LocalMemory) (app user sid : String) (now : Nat)
    (h1 : 1 ≤ m.max_sessions) (hinv : memInv m) :
    memInv (create_session m app user sid now).1 := by
  have hcaps := cleanupSessions_caps m
  constructor
  · show (dictInsert sid _ (cleanupSessions m).sessions).length ≤ _
    have hle := length_dictInsert_le sid
      (SessionMemory.mk sid user app [] now now) (cleanupSessions m).sessions
    by_cases hfull : m.max_sessions ≤ m.sessions.length
    · have := cleanupSessions_length_lt m h1 hfull
      have := hinv.1
      simp only [create_session]
      omega
    · have heq : cleanupSessions m = m := by
        unfold cleanupSessions
        rw [if_neg hfull]
      rw [heq] at hle ⊢
      simp only [create_session]
      omega
  · intro p hp
    rcases mem_dictInsert _ _ _ _ hp with h | h
    · subst h
      simp
    · have := hinv.2 p (mem_cleanupSessions m p h)
      simp only [create_session]
      omega

theorem add_event_inv (m : LocalMemory) (sid : String) (e : MemoryEvent) (now : Nat)
    (h2 : 2 ≤ m.max_events_per_session) (hinv : memInv m) :
    memInv (add_event m sid e now).1 := by
  cases hg : dictGet sid m.sessions with
  | none =>
    simpa [add_event, hg] using hinv
  | some s =>
    have hs : s.events.length ≤ m.max_events_per_session :=
      hinv.2 (sid, s) (dictGet_mem sid m.sessions s hg)
    constructor
    · simp only [add_event, hg]
      rw [length_dictInsert_of_isSome sid _ m.sessions (by simp [hg])]
      exact hinv.1
    · intro p hp
      simp only [add_event, hg] at hp ⊢
      rcases mem_dictInsert _ _ _ _ hp with h | h
      · subst h
        simp only
        unfold cleanupEvents
        by_cases hfull : m.max_events_per_session ≤ s.events.length
        · rw [if_pos hfull]
          simp only [sliceLastPy]
          rw [if_neg (by omega)]
          simp only [List.length_append, List.length_drop, List.length_cons,
            List.length_nil]
          omega
        · rw [if_neg hfull]
          simp only [List.length_append, List.length_cons, List.length_nil]
          omega
      · exact hinv.2 p h

theorem applyOp_caps (now : Nat) (m : LocalMemory) (op : MemOp) :
    (applyOp now m op).max_sessions = m.max_sessions ∧
      (applyOp now m op).max_events_per_session = m.max_events_per_session := by
  cases op with
  | create app user sid =>
    have := cleanupSessions_caps m
    simp only [applyOp, create_session]
    omega
  | getOrCreate sid app user =>
    cases hg : dictGet sid m.sessions with
    | none =>
      have := cleanupSessions_caps m
      simp only [applyOp, get_or_create_session, hg, create_session]
      omega
    | some s => simp [applyOp, get_or_create_session, hg]
  | addEvent sid e => exact ⟨(add_event_caps m sid e now).2, (add_event_caps m sid e now).1⟩
  | deleteSession sid =>
    cases hg : dictGet sid m.sessions with
    | none => simp [applyOp, delete_session, hg]
    | some s => simp [applyOp, delete_session, hg]
  | cleanupOld cutoff => simp [applyOp, cleanup_old_sessions]

theorem applyOp_inv (now : Nat) (m : LocalMemory) (op : MemOp)
    (h1 : 1 ≤ m.max_sessions) (h2 : 2 ≤ m.max_events_per_session)
    (hinv : memInv m) : memInv (applyOp now m op) := by
  cases op with
  | create app user sid => exact create_session_inv m app user sid now h1 hinv
  | getOrCreate sid app user =>
    cases hg : dictGet sid m.sessions with
    | none =>
      have := create_session_inv m app user sid now h1 hinv
      simpa [applyOp, get_or_create_session, hg] using this
    | some s => simpa [applyOp, get_or_create_session, hg] using hinv
  | addEvent sid e => exact add_event_inv m sid e now h2 hinv
  | deleteSession sid =>
    cases hg : dictGet sid m.sessions with
    | none => simpa [applyOp, delete_session, hg] using hinv
    | some s =>
      constructor
      · simp only [applyOp, delete_session, hg]
        have := length_dictRemove_le sid m.sessions
        have := hinv.1
        omega
      · intro p hp
        simp only [applyOp, delete_session, hg] at hp ⊢
        exact hinv.2 p (mem_dictRemove sid m.sessions p hp)
  | cleanupOld cutoff =>
    constructor
    · simp only [applyOp, cleanup_old_sessions]
      have := List.length_filter_le
        (fun (e : String × SessionMemory) => !(e.2.updated_at < cutoff)) m.sessions
      have := hinv.1
      omega
    · intro p hp
      simp only [applyOp, cleanup_old_sessions] at hp
      exact hinv.2 p (List.mem_of_mem_filter hp)

theorem applyOps_inv (ops : List (Nat × MemOp)) :
    ∀ m : LocalMemory, 1 ≤ m.max_sessions → 2 ≤ m.max_events_per_session →
      memInv m → memInv (applyOps ops m) := by
  induction ops with
  | nil => intro m _ _ hinv; simpa [applyOps] using hinv
  | cons p rest ih =>
    intro m h1 h2 hinv
    have hcaps := applyOp_caps p.1 m p.2
    have hstep := applyOp_inv p.1 m p.2 h1 h2 hinv
    have := ih (applyOp p.1 m p.2) (by omega) (by omega) hstep
    simpa [applyOps] using this

/-- C8 counterexample: with both caps equal to 1 (the claim allows caps ≥ 1),
two `add_event` calls on one session leave 2 events in it, violating the
event bound: at cap 1 the trim keeps `int(1 * 0.8) = 0` events, and Python's
`events[-0:]` slice is the whole list, so nothing is ever dropped. -/
theorem memory_bounds_counterexample :
    memBoundsOk
        (applyOps
          [(0, MemOp.create "a" "u" "s"), (1, MemOp.addEvent "s" (sampleEvent 0)),
            (2, MemOp.addEvent "s" (sampleEvent 1))]
          (initMem 1 1)) = false := rfl

/-- C8 as amended: for `maxSessions ≥ 1` and `maxEventsPerSession ≥ 2`
(claim said ≥ 1, but cap 1 defeats the trim via the `[-0:]` slice), after any
sequence of store operations starting from a fresh store, the store holds at
most `maxSessions` sessions and every stored session holds at most
`maxEventsPerSession` events. -/
theorem memory_bounds_invariant (ops : List (Nat × MemOp)) (maxS maxE : Nat)
    (h1 : 1 ≤ maxS) (h2 : 2 ≤ maxE) :
    memBoundsOk (applyOps ops (initMem maxS maxE)) = true := by
  rw [memBoundsOk_iff_memInv]
  refine applyOps_inv ops (initMem maxS maxE) h1 h2 ⟨?_, ?_⟩
  · simp [initMem]
  · intro p hp
    simp [initMem] at hp

/-- Witness for the amended C8 at caps (1, 2) over a short operation
sequence that overfills the one session. -/
theorem memory_bounds_invariant_witness :
    memBoundsOk
        (applyOps
          [(0, MemOp.create "a" "u" "s"), (1, MemOp.addEvent "s" (sampleEvent 0)),
            (2, MemOp.addEvent "s" (sampleEvent 1)),
            (3, MemOp.addEvent "s" (sampleEvent 2)),
            (4, MemOp.getOrCreate "s" "a" "u"), (5, MemOp.create "b" "u" "s2")]
          (initMem 1 2)) = true :=
  memory_bounds_invariant _ 1 2 (by norm_num) (by norm_num)

/-!
Claim C5: double-closing a span record. An ended record is popped
immediately, so the `ended` guard never fires for it again: a second close
lands on the new stack top — the enclosing record — and closes it, rather
than being a no-op.
-/

/-- C5 counterexample: begin parent, begin child, `span_failure` (ends the
child); a second `span_success` is not a no-op — it pops and ends the
enclosing parent record, leaving the stack empty where the claim requires
the parent to stay open and the stack unchanged. -/
theorem double_close_counterexample :
    demoTrackerAfterClose.stack = [SpanRec.mk "parent" 0 (some "request") false] ∧
      (span_success demoTrackerAfterClose).stack = [] ∧
      (span_success demoTrackerAfterClose).endedLog =
        [("child", false), ("parent", true)] :=
  ⟨rfl, rfl, rfl⟩

/-- C5 as amended: after `spanBegin parent; spanBegin child` and a
`spanFailure` that ends the child, a second `spanSuccess` ends and pops the
enclosing parent record (restoring the stack from before the parent began
and logging the parent as ended); a second close is a no-op only when the
span stack is empty (in particular when tracing is disabled and the stack
was never pushed). -/
theorem double_close_ends_parent :
    (∀ (t : Tracker) (n1 n2 em : String) (now1 now2 : Nat) (mk1 mk2 : Option String),
      t.initialized = true →
      (span_success
          (span_failure (span_begin (span_begin t n1 now1 mk1) n2 now2 mk2) em)).stack
          = t.stack ∧
        (span_success
          (span_failure (span_begin (span_begin t n1 now1 mk1) n2 now2 mk2) em)).endedLog
          = t.endedLog ++ [(n2, false), (n1, true)]) ∧
    (∀ (t : Tracker) (em : String), t.stack = [] →
      span_success t = t ∧ span_failure t em = t) := by
  constructor
  · intro t n1 n2 em now1 now2 mk1 mk2 h
    simp [span_begin, span_failure, span_success, h, List.getLast?_concat,
      List.dropLast_concat]
  · intro t em h
    by_cases hi : t.initialized <;>
      simp [span_success, span_failure, h, hi]

/-- Witness for the amended C5 at the concrete two-span tracker. -/
theorem double_close_ends_parent_witness :
    (span_success demoTrackerAfterClose).stack = [] ∧
      (span_success demoTrackerAfterClose).endedLog =
        [("child", false), ("parent", true)] ∧
      span_success (Tracker.mk true [] [] []) = Tracker.mk true [] [] [] :=
  ⟨(double_close_ends_parent.1 demoTracker "parent" "child" "boom" 0 1
      (some "request") none rfl).1,
    (double_close_ends_parent.1 demoTracker "parent" "child" "boom" 0 1
      (some "request") none rfl).2,
    (double_close_ends_parent.2 (Tracker.mk true [] [] []) "e" rfl).1⟩

/-!
Claim C4: peer handle lifecycle.
-/

/-- C4: a fresh `RemoteAgent` handle starts inactive; any failure of
activation or of the invocation request leaves the handle inactive and
surfaces as a raised `RuntimeError`; and an invoke on an inactive handle
retries activation — when the card fetch and the request both succeed, the
call returns the content and the handle ends active. -/
theorem remote_agent_lifecycle :
    (∀ name url, (RemoteAgent_new name url).active = false) ∧
    (∀ (ra : RemoteAgentState) (msgs : List Msg) (fetch : Except Exc JVal)
        (post : Except Exc String) (e : Exc),
      (RemoteAgent_process_message ra msgs fetch post).2 = Except.error e →
      (RemoteAgent_process_message ra msgs fetch post).1.active = false ∧
        ∃ s, e = Exc.runtimeError s) ∧
    (∀ (ra : RemoteAgentState) (msgs : List Msg) (data : JVal) (c : String),
      ra.active = false →
      RemoteAgent_process_message ra msgs (Except.ok data) (Except.ok c)
          = ((RemoteAgent_init ra (Except.ok data)).1, Except.ok c) ∧
        (RemoteAgent_init ra (Except.ok data)).1.active = true) := by
  refine ⟨fun name url => rfl, ?_, ?_⟩
  · intro ra msgs fetch post e h
    by_cases ha : ra.active
    · cases post with
      | ok c => simp [RemoteAgent_process_message, ha] at h
      | error pe =>
        simp [RemoteAgent_process_message, ha] at h ⊢
        exact ⟨_, h.symm⟩
    · cases fetch with
      | ok data =>
        cases post with
        | ok c =>
          simp [RemoteAgent_process_message, ha, RemoteAgent_init] at h
        | error pe =>
          simp [RemoteAgent_process_message, ha, RemoteAgent_init] at h ⊢
          exact ⟨_, h.symm⟩
      | error fe =>
        simp [RemoteAgent_process_message, ha, RemoteAgent_init] at h ⊢
        exact ⟨_, h.symm⟩
  · intro ra msgs data c ha
    simp [RemoteAgent_process_message, ha, RemoteAgent_init]

/-- Witness for C4: a concrete fresh handle, a failed activation, and a
successful retried activation. -/
theorem remote_agent_lifecycle_witness :
    (RemoteAgent_new "w" "http://x/").active = false ∧
      (RemoteAgent_process_message (RemoteAgent_new "w" "http://x/") []
          (Except.error (Exc.otherError "down")) (Except.ok "hi")).1.active = false ∧
      RemoteAgent_process_message (RemoteAgent_new "w" "http://x") []
          (Except.ok (JVal.obj [])) (Except.ok "hi")
        = ((RemoteAgent_init (RemoteAgent_new "w" "http://x")
            (Except.ok (JVal.obj []))).1, Except.ok "hi") :=
  ⟨remote_agent_lifecycle.1 "w" "http://x/",
    (remote_agent_lifecycle.2.1 (RemoteAgent_new "w" "http://x/") []
      (Except.error (Exc.otherError "down")) (Except.ok "hi")
      (Exc.runtimeError "Agent w unavailable at http://x") rfl).1,
    (remote_agent_lifecycle.2.2 (RemoteAgent_new "w" "http://x") [] (JVal.obj [])
      "hi" rfl).1⟩

/-!
Loop lemmas.
-/

theorem recordEvent_isSome (sid ty : String) (c : JVal) (st : LoopState) (sid' : String)
    (h : (dictGet sid' st.mem.sessions).isSome) :
    (dictGet sid' (recordEvent sid ty c st).mem.sessions).isSome :=
  add_event_isSome st.mem sid sid' _ _ h

theorem loopSafe_mono (env : LoopEnv) (cfg : AgentCfg) (sid : String) (stream : Bool)
    (n : Nat) (st st' : LoopState)
    (hmem : ∀ sid', (dictGet sid' st.mem.sessions).isSome →
      (dictGet sid' st'.mem.sessions).isSome)
    (hch : st'.chunks = st.chunks)
    (h : loopSafe env cfg sid stream n st') :
    (∀ sid', (dictGet sid' st.mem.sessions).isSome →
      (dictGet sid' (agenticLoop env cfg sid stream n st').1.mem.sessions).isSome) ∧
    ∀ e, (agenticLoop env cfg sid stream n st').2 = some e →
      (agenticLoop env cfg sid stream n st').1.chunks = st.chunks :=
  ⟨fun sid' hp => h.1 sid' (hmem sid' hp), fun e he => (h.2 e he).trans hch⟩

theorem agenticLoop_safe (env : LoopEnv) (cfg : AgentCfg) (sid : String) (stream : Bool) :
    ∀ (fuel : Nat) (st : LoopState), loopSafe env cfg sid stream fuel st := by
  intro fuel
  induction fuel with
  | zero =>
    intro st
    exact ⟨fun sid' h => h, fun e he => by simp [agenticLoop] at he⟩
  | succ n ih =>
    intro st
    unfold loopSafe
    simp only [agenticLoop]
    repeat' split
    all_goals first
      | exact ⟨fun _ h => h, fun _ _ => rfl⟩
      | exact ⟨fun sid' h => recordEvent_isSome _ _ _ _ _ h, fun _ _ => rfl⟩
      | exact ⟨fun sid' h => recordEvent_isSome _ _ _ _ _ h, fun e' he' => by simp at he'⟩
      | exact loopSafe_mono _ _ _ _ _ _ _ (fun sid' h => h) rfl (ih _)
      | exact loopSafe_mono _ _ _ _ _ _ _
          (fun sid' h => recordEvent_isSome _ _ _ _ _ h) rfl (ih _)
      | exact loopSafe_mono _ _ _ _ _ _ _
          (fun sid' h => recordEvent_isSome _ _ _ _ _
            (recordEvent_isSome _ _ _ _ _ h)) rfl (ih _)

theorem sessionOf_isSome (m0 : LocalMemory) (sidOpt : Option String) (freshId : String)
    (now : Nat) :
    (dictGet (sessionOf m0 sidOpt freshId now).2
      (sessionOf m0 sidOpt freshId now).1.sessions).isSome := by
  cases sidOpt with
  | none => simp [sessionOf, create_session, dictGet_dictInsert_self]
  | some s =>
    cases hg : dictGet s m0.sessions with
    | some v => simp [sessionOf, get_or_create_session, hg]
    | none =>
      simp [sessionOf, get_or_create_session, hg, create_session, dictGet_dictInsert_self]

theorem initLoopState_isSome (sysPrompt message sid : String) (m1 : LocalMemory)
    (now : Nat) (h : (dictGet sid m1.sessions).isSome) :
    (dictGet sid (initLoopState sysPrompt message sid m1 now).mem.sessions).isSome :=
  recordEvent_isSome sid "user_message" (JVal.str message) _ sid h

/-!
Claim C3: the loop boundary converts escaping exceptions.
-/

/-- C3: whenever an exception escapes a reasoning-loop step (here: the
`agenticLoop` run inside `processMessage` ends with an escaping exception,
which the model can raise at any step and a non-RuntimeError sub-agent
failure can as well), `processMessage` returns normally — it yields exactly
one apologetic final message (no chunks preceded it) and appends an `error`
event carrying the boundary's error text as the last event of the session.
No exception reaches the caller: `processMessage` is a total function into
`ProcResult`. -/
theorem loop_boundary_catches (env : LoopEnv) (cfg : AgentCfg)
    (sysPrompt message : String) (sidOpt : Option String) (freshId : String)
    (stream : Bool) (m0 : LocalMemory) (now : Nat) (e : Exc)
    (h : (agenticLoop env cfg (sessionOf m0 sidOpt freshId now).2 stream cfg.max_steps
        (initLoopState sysPrompt message (sessionOf m0 sidOpt freshId now).2
          (sessionOf m0 sidOpt freshId now).1 now)).2 = some e) :
    (processMessage env cfg sysPrompt message sidOpt freshId stream m0 now).chunks
        = ["Sorry, I encountered an error: " ++ excMsg e] ∧
      ∃ ev, (get_session_events
            (processMessage env cfg sysPrompt message sidOpt freshId stream m0 now).mem
            (sessionOf m0 sidOpt freshId now).2).getLast? = some ev ∧
        ev.event_type = "error" ∧
        ev.content = JVal.str ("Error processing message: " ++ excMsg e) := by
  have hsafe := agenticLoop_safe env cfg (sessionOf m0 sidOpt freshId now).2 stream
    cfg.max_steps
    (initLoopState sysPrompt message (sessionOf m0 sidOpt freshId now).2
      (sessionOf m0 sidOpt freshId now).1 now)
  rcases hl : agenticLoop env cfg (sessionOf m0 sidOpt freshId now).2 stream cfg.max_steps
      (initLoopState sysPrompt message (sessionOf m0 sidOpt freshId now).2
        (sessionOf m0 sidOpt freshId now).1 now) with ⟨stF, r⟩
  unfold loopSafe at hsafe
  rw [hl] at h hsafe
  simp only at h hsafe
  subst h
  have hch : stF.chunks =
      (initLoopState sysPrompt message (sessionOf m0 sidOpt freshId now).2
        (sessionOf m0 sidOpt freshId now).1 now).chunks := hsafe.2 e rfl
  have hpres : (dictGet (sessionOf m0 sidOpt freshId now).2 stF.mem.sessions).isSome :=
    hsafe.1 _ (initLoopState_isSome _ _ _ _ _ (sessionOf_isSome m0 sidOpt freshId now))
  rcases Option.isSome_iff_exists.mp hpres with ⟨sF, hsF⟩
  have hadd := add_event_get_self stF.mem (sessionOf m0 sidOpt freshId now).2
    (mkEvent stF.clock "error" (JVal.str ("Error processing message: " ++ excMsg e)))
    stF.clock sF hsF
  constructor
  · simp only [processMessage, hl]
    rw [hch]
    rfl
  · refine ⟨mkEvent stF.clock "error"
      (JVal.str ("Error processing message: " ++ excMsg e)), ?_, rfl, rfl⟩
    simp only [processMessage, hl]
    unfold get_session_events
    rw [show (recordEvent (sessionOf m0 sidOpt freshId now).2 "error"
        (JVal.str ("Error processing message: " ++ excMsg e)) stF).mem
        = (add_event stF.mem (sessionOf m0 sidOpt freshId now).2
          (mkEvent stF.clock "error"
            (JVal.str ("Error processing message: " ++ excMsg e))) stF.clock).1 from rfl]
    rw [hadd]
    simp

/-- Witness for C3: a model backend that always raises turns into a single
apologetic chunk. -/
theorem loop_boundary_catches_witness :
    (processMessage demoErrEnv demoCfg "sys" "hi" (some "s") "f" false
        (initMem 100 50) 0).chunks
      = ["Sorry, I encountered an error: boom"] :=
  (loop_boundary_catches demoErrEnv demoCfg "sys" "hi" (some "s") "f" false
    (initMem 100 50) 0 (Exc.otherError "boom") rfl).1

/-!
Claim C2: a model that always emits the same tool directive drives the loop
through all `max_steps` steps.
-/

theorem agenticLoop_constant_tool (env : LoopEnv) (cfg : AgentCfg) (sid : String)
    (stream : Bool) (C : String) (tc : JVal) (tname : String)
    (hC : ∀ msgs, env.modelCall msgs = Except.ok C)
    (hparse : parse_block C "tool_call" = some tc)
    (hname : jGetD tc "tool" (JVal.str "") = JVal.str tname)
    (hne : tname ≠ "")
    (hav : env.availableTool tname = true) :
    ∀ (fuel : Nat) (st : LoopState),
      (agenticLoop env cfg sid stream fuel st).2 = none ∧
        (agenticLoop env cfg sid stream fuel st).1.toolCalls = st.toolCalls + fuel ∧
        (agenticLoop env cfg sid stream fuel st).1.chunks
          = st.chunks ++ [maxStepsMsg cfg.max_steps] := by
  intro fuel
  induction fuel with
  | zero =>
    intro st
    exact ⟨rfl, rfl, rfl⟩
  | succ n ih =>
    intro st
    have hfal : jFalsy (JVal.str tname) = false := by
      show tname.isEmpty = false
      exact Bool.eq_false_iff.mpr (fun hemp => hne ((String.isEmpty_iff tname).mp hemp))
    have cont : ∀ ST : LoopState, ST.toolCalls = st.toolCalls + 1 →
        ST.chunks = st.chunks →
        (agenticLoop env cfg sid stream n ST).2 = none ∧
          (agenticLoop env cfg sid stream n ST).1.toolCalls = st.toolCalls + (n + 1) ∧
          (agenticLoop env cfg sid stream n ST).1.chunks
            = st.chunks ++ [maxStepsMsg cfg.max_steps] := by
      intro ST h1 h2
      refine ⟨(ih ST).1, ?_, ?_⟩
      · rw [(ih ST).2.1, h1]
        omega
      · rw [(ih ST).2.2, h2]
    simp only [agenticLoop, hC st.messages, hparse, hfal, hname, hav,
      Bool.false_eq_true, if_false, if_true]
    cases hcall : env.callTool tname (jGetD tc "arguments" (JVal.obj [])) with
    | ok r =>
      simp only [hcall]
      apply cont <;> rfl
    | error ex =>
      simp only [hcall]
      apply cont <;> rfl

/-- C2: with `maxSteps = k ≥ 1`, if every model call returns the same
well-formed tool-call directive naming an available tool (so no final answer
ever appears), one `processMessage` call performs exactly `k` tool
invocations — one per loop step — and ends by emitting the fixed diagnostic
termination message as its only chunk, not an error. -/
theorem max_steps_tool_loop (env : LoopEnv) (cfg : AgentCfg)
    (sysPrompt message : String) (sidOpt : Option String) (freshId : String)
    (stream : Bool) (m0 : LocalMemory) (now : Nat)
    (C : String) (tc : JVal) (tname : String)
    (_hk : 1 ≤ cfg.max_steps)
    (hC : ∀ msgs, env.modelCall msgs = Except.ok C)
    (hparse : parse_block C "tool_call" = some tc)
    (hname : jGetD tc "tool" (JVal.str "") = JVal.str tname)
    (hne : tname ≠ "")
    (hav : env.availableTool tname = true) :
    (processMessage env cfg sysPrompt message sidOpt freshId stream m0 now).chunks
        = [maxStepsMsg cfg.max_steps] ∧
      (processMessage env cfg sysPrompt message sidOpt freshId stream m0 now).toolCalls
        = cfg.max_steps := by
  have h := agenticLoop_constant_tool env cfg (sessionOf m0 sidOpt freshId now).2 stream
    C tc tname hC hparse hname hne hav cfg.max_steps
    (initLoopState sysPrompt message (sessionOf m0 sidOpt freshId now).2
      (sessionOf m0 sidOpt freshId now).1 now)
  rcases hl : agenticLoop env cfg (sessionOf m0 sidOpt freshId now).2 stream cfg.max_steps
      (initLoopState sysPrompt message (sessionOf m0 sidOpt freshId now).2
        (sessionOf m0 sidOpt freshId now).1 now) with ⟨stF, r⟩
  rw [hl] at h
  simp only at h
  obtain ⟨h1, h2, h3⟩ := h
  subst h1
  constructor
  · simp only [processMessage, hl]
    rw [h3]
    rfl
  · simp only [processMessage, hl]
    rw [h2]
    show (0 : Nat) + cfg.max_steps = cfg.max_steps
    omega

/-- Witness for C2 at `k = 3` with a concrete constant tool directive. -/
theorem max_steps_tool_loop_witness :
    (processMessage demoToolEnv demoCfg "sys" "hi" (some "s") "f" false
        (initMem 100 50) 0).chunks = [maxStepsMsg 3] ∧
      (processMessage demoToolEnv demoCfg "sys" "hi" (some "s") "f" false
        (initMem 100 50) 0).toolCalls = 3 :=
  max_steps_tool_loop demoToolEnv demoCfg "sys" "hi" (some "s") "f" false
    (initMem 100 50) 0 demoToolContent
    (JVal.obj [("tool", JVal.str "calc"), ("arguments", JVal.obj [])]) "calc"
    (by decide) (fun _ => rfl) rfl rfl (by decide) rfl

/-!
Claim C6: the directive parser never raises and malformed bodies fall
through to a final response.
-/

/-- C6: for any model text and directive kind, the parser is a total
function into `Option` (it cannot raise); when the first fenced block tagged
with the kind is found but its body fails JSON parsing, `parse_block`
returns `none`; and when both directive parses return `none`, the loop step
treats the surrounding text as the final response — it returns without an
exception, emits the text as its single (non-streaming) chunk, and records
an `agent_response` event holding the text as the session's last event. -/
theorem parse_block_malformed_absent :
    (∀ (content block_type g : String),
      reSearchBlock block_type content.toList = some g →
      json_loads g = none →
      parse_block content block_type = none) ∧
    (∀ (env : LoopEnv) (cfg : AgentCfg) (sid : String) (st : LoopState) (n : Nat)
        (content : String),
      env.modelCall st.messages = Except.ok content →
      parse_block content "tool_call" = none →
      parse_block content "delegate" = none →
      (dictGet sid st.mem.sessions).isSome →
      (agenticLoop env cfg sid false (n + 1) st).2 = none ∧
        (agenticLoop env cfg sid false (n + 1) st).1.chunks = st.chunks ++ [content] ∧
        (get_session_events (agenticLoop env cfg sid false (n + 1) st).1.mem sid).getLast?
          = some (mkEvent st.clock "agent_response" (JVal.str content))) := by
  constructor
  · intro content block_type g h1 h2
    unfold parse_block
    rw [h1]
    exact h2
  · intro env cfg sid st n content hm ht hd hpres
    rcases Option.isSome_iff_exists.mp hpres with ⟨sF, hsF⟩
    have hadd := add_event_get_self st.mem sid
      (mkEvent st.clock "agent_response" (JVal.str content)) st.clock sF hsF
    simp only [agenticLoop, hm, ht, hd]
    refine ⟨trivial, rfl, ?_⟩
    unfold get_session_events
    rw [show (recordEvent sid "agent_response" (JVal.str content) st).mem
        = (add_event st.mem sid
          (mkEvent st.clock "agent_response" (JVal.str content)) st.clock).1 from rfl]
    rw [hadd]
    simp

/-- Witness for C6: a malformed `delegate` block body yields `none`, and a
directive-free model answer becomes the final response chunk. -/
theorem parse_block_malformed_absent_witness :
    parse_block "see ```delegate\n\x7bnot json\x7d\n``` done" "delegate" = none ∧
      (agenticLoop demoPlainEnv demoCfg "s" false 1
          (initLoopState "sys" "hi" "s"
            (create_session (initMem 5 5) "agent" "user" "s" 0).1 0)).1.chunks
        = ["plain answer"] :=
  ⟨parse_block_malformed_absent.1 "see ```delegate\n\x7bnot json\x7d\n``` done"
      "delegate" "\x7bnot json\x7d" rfl rfl,
    (parse_block_malformed_absent.2 demoPlainEnv demoCfg "s"
      (initLoopState "sys" "hi" "s"
        (create_session (initMem 5 5) "agent" "user" "s" 0).1 0) 0 "plain answer"
      rfl rfl rfl rfl).2.1⟩
